import Mathlib

/-!
Verification of the simple-stocks trade-history engine (src/main.py).

The embedding is shallow: Python datetime instants become integers
(seconds), pennies and computed prices become rationals, and Python
division, which raises ZeroDivisionError on a zero divisor, becomes an
Except-valued operation.  Each class method of the source becomes a pure
Lean function; mutation of a Stock or StockExchangeEngine is modelled by
returning the updated value.
-/

set_option autoImplicit false

namespace SimpleStocks

/-- Error classes: ZeroDivisionError is the one Python raises on division
by zero (and the one raised explicitly by get_price_earnings_ratio);
EmptyRegistry is the error class named by the specification for
allShareIndex on an empty registry. -/
inductive PyError where
  | zeroDivisionError
  | emptyRegistry

deriving instance DecidableEq for PyError

/-- Python division a / b: raises ZeroDivisionError when b is zero,
otherwise returns the exact quotient. -/
def pydiv (a b : ℚ) : Except PyError ℚ :=
  if b = 0 then .error .zeroDivisionError else .ok (a / b)

/-- Trade (src/main.py, class Trade): symbol, timestamp, quantity,
buy-versus-sell flag and trade price, stored as given, with no
validation.  Timestamps are integers, in seconds. -/
structure Trade where
  symbol : String
  timestamp : ℤ
  quantity : ℤ
  buyVsSell : Bool
  price : ℤ

deriving instance DecidableEq for Trade

/-- Trade.isSale. -/
def Trade.isSale (t : Trade) : Bool := !t.buyVsSell

/-- Trade.isPurchase. -/
def Trade.isPurchase (t : Trade) : Bool := t.buyVsSell

/-- Stock (src/main.py, class Stock): static attributes, the current
ticker price, and the ordered trade history (list, appended to by
record_trade). -/
structure Stock where
  symbol : String
  trades : List Trade
  price : ℚ
  preferred : Bool
  par_value : ℤ
  last_dividend : ℤ
  fixed_dividend : ℚ

deriving instance DecidableEq for Stock

/-- timedelta(minutes=15), in seconds. -/
def fifteen_minutes : ℤ := 900

/-- The scan loop of Stock.recalculate_price (src/main.py lines 121-130):
walk the trade list in list order, accumulating quantity and traded value
of trades whose age (now - timestamp) is at most fifteen minutes, and
break at the first trade older than that. -/
def scanLoop (now : ℤ) : List Trade → ℤ → ℤ → ℤ × ℤ
  | [], total_qty, total_traded_value => (total_qty, total_traded_value)
  | t :: ts, total_qty, total_traded_value =>
    if now - t.timestamp ≤ fifteen_minutes then
      scanLoop now ts (total_qty + t.quantity) (total_traded_value + t.price * t.quantity)
    else
      (total_qty, total_traded_value)

/-- Modelled from the claim: the same accumulation over the whole
history, with no early exit - out-of-window trades are skipped and the
scan continues to the end of the list. -/
def fullScanLoop (now : ℤ) : List Trade → ℤ → ℤ → ℤ × ℤ
  | [], total_qty, total_traded_value => (total_qty, total_traded_value)
  | t :: ts, total_qty, total_traded_value =>
    if now - t.timestamp ≤ fifteen_minutes then
      fullScanLoop now ts (total_qty + t.quantity) (total_traded_value + t.price * t.quantity)
    else
      fullScanLoop now ts total_qty total_traded_value

/-- Stock.recalculate_price (src/main.py lines 104-136).  The instant
now models the datetime.now() read at line 114.  Returns the updated
stock together with the returned price: when the accumulated quantity is
positive the price becomes total traded value / total quantity, otherwise
the stock is returned unchanged and the old price is returned. -/
def Stock.recalculate_price (s : Stock) (now : ℤ) : Except PyError (Stock × ℚ) :=
  let acc := scanLoop now s.trades 0 0
  if 0 < acc.1 then
    Except.map (fun p => ({ s with price := p }, p)) (pydiv (acc.2 : ℚ) (acc.1 : ℚ))
  else
    .ok (s, s.price)

/-- Modelled from the claim: recalculate_price with the early exit
replaced by a full scan of the entire history. -/
def Stock.recalculate_price_full (s : Stock) (now : ℤ) : Except PyError (Stock × ℚ) :=
  let acc := fullScanLoop now s.trades 0 0
  if 0 < acc.1 then
    Except.map (fun p => ({ s with price := p }, p)) (pydiv (acc.2 : ℚ) (acc.1 : ℚ))
  else
    .ok (s, s.price)

/-- Stock.record_trade (src/main.py lines 96-102): append the trade to
the history, then recalculate the ticker price. -/
def Stock.record_trade (s : Stock) (t : Trade) (now : ℤ) : Except PyError (Stock × ℚ) :=
  Stock.recalculate_price { s with trades := s.trades ++ [t] } now

/-- Stock.get_dividend_yield (src/main.py lines 138-155): preferred
stocks use (par value times last dividend) / price, common stocks use
last dividend / price; the division is unguarded. -/
def Stock.get_dividend_yield (s : Stock) : Except PyError ℚ :=
  if s.preferred then
    pydiv ((s.par_value * s.last_dividend : ℤ) : ℚ) s.price
  else
    pydiv (s.last_dividend : ℚ) s.price

/-- Stock.get_price_earnings_ratio (src/main.py lines 157-166): price /
last dividend when the last dividend is positive, otherwise an explicit
ZeroDivisionError. -/
def get_price_earnings_ratio (s : Stock) : Except PyError ℚ :=
  if 0 < s.last_dividend then
    pydiv s.price (s.last_dividend : ℚ)
  else
    .error .zeroDivisionError

/-- StockExchangeEngine (src/main.py, class StockExchangeEngine): the
symbol-keyed mapping of stocks, modelled as an insertion-ordered
association list with unique keys, as a Python dict is. -/
structure StockExchangeEngine where
  all_stocks : List (String × Stock)

deriving instance DecidableEq for StockExchangeEngine

/-- Dict lookup: first entry with the given key, if any. -/
def lookupStock : List (String × Stock) → String → Option Stock
  | [], _ => none
  | (k, s) :: rest, symbol => if k = symbol then some s else lookupStock rest symbol

/-- Dict update of an existing key: replace the value in place, keeping
the entry position. -/
def updateStock : List (String × Stock) → String → Stock → List (String × Stock)
  | [], _, _ => []
  | (k, s) :: rest, symbol, s2 =>
    if k = symbol then (k, s2) :: rest else (k, s) :: updateStock rest symbol s2

/-- StockExchangeEngine.add_stock (src/main.py lines 200-217): create a
new Stock ledger under the symbol only when the symbol is absent;
otherwise do nothing. -/
def StockExchangeEngine.add_stock (e : StockExchangeEngine) (symbol : String)
    (initial_price : ℚ) (preferredVsCommon : Bool) (par_value : ℤ)
    (last_dividend : ℤ) (fixed_dividend : ℚ) : StockExchangeEngine :=
  match lookupStock e.all_stocks symbol with
  | some _ => e
  | none =>
    ⟨e.all_stocks ++
      [(symbol, ⟨symbol, [], initial_price, preferredVsCommon, par_value, last_dividend, fixed_dividend⟩)]⟩

/-- StockExchangeEngine.record_trade (src/main.py lines 219-228): look
the symbol up; when present, delegate to the Stock record_trade and
store the updated ledger; when absent, do nothing. -/
def StockExchangeEngine.record_trade (e : StockExchangeEngine) (symbol : String)
    (t : Trade) (now : ℤ) : Except PyError StockExchangeEngine :=
  match lookupStock e.all_stocks symbol with
  | none => .ok e
  | some s =>
    Except.map (fun x => ⟨updateStock e.all_stocks symbol x.1⟩) (Stock.record_trade s t now)

/-- The product of the current prices of all stocks, as accumulated by
get_all_share_index (src/main.py lines 234-236), starting from 1. -/
def pricesProduct (e : StockExchangeEngine) : ℚ :=
  e.all_stocks.foldl (fun acc p => acc * p.2.price) 1

/-- StockExchangeEngine.get_all_share_index (src/main.py lines 230-238):
math.pow(prices_product, 1/len(all_stocks)).  On an empty registry the
subexpression 1/len divides by zero, so Python raises ZeroDivisionError
before math.pow runs; otherwise the real power models math.pow. -/
noncomputable def StockExchangeEngine.get_all_share_index (e : StockExchangeEngine) :
    Except PyError ℝ :=
  if e.all_stocks.length = 0 then
    .error .zeroDivisionError
  else
    .ok (((pricesProduct e : ℚ) : ℝ) ^ ((1 : ℝ) / (e.all_stocks.length : ℝ)))

/-- StockExchangeEngine.get_stock (src/main.py lines 246-257). -/
def StockExchangeEngine.get_stock (e : StockExchangeEngine) (symbol : String) : Option Stock :=
  lookupStock e.all_stocks symbol

/-! Concrete data used by the claims. -/

def teaSym : String := "TEA"

def popSym : String := "POP"

def ginSym : String := "GIN"

def joeSym : String := "JOE"

/-- A trade twenty minutes (1200 seconds) before the reference instant 0. -/
def c1Old : Trade := ⟨teaSym, -1200, 10, true, 100⟩

/-- A trade five minutes (300 seconds) before the reference instant 0. -/
def c1New : Trade := ⟨teaSym, -300, 5, true, 120⟩

/-- A ledger with empty history and price 50. -/
def c1Base : Stock := ⟨teaSym, [], 50, false, 100, 8, 0⟩

/-- c1Base after recording c1Old. -/
def c1Mid : Stock := ⟨teaSym, [c1Old], 50, false, 100, 8, 0⟩

/-- c1Base after recording c1Old and then c1New: append order, oldest
first. -/
def c1Stock : Stock := ⟨teaSym, [c1Old, c1New], 50, false, 100, 8, 0⟩

/-- The same two trades stored newest-first. -/
def c1Sorted : Stock := ⟨teaSym, [c1New, c1Old], 50, false, 100, 8, 0⟩

/-! Shared lemmas about the history scan. -/

/-- When every trade of the list is older than fifteen minutes, the full
scan accumulates nothing. -/
theorem fullScanLoop_stale (now : ℤ) (ts : List Trade)
    (h : ∀ t ∈ ts, fifteen_minutes < now - t.timestamp) (q v : ℤ) :
    fullScanLoop now ts q v = (q, v) := by
  induction ts generalizing q v with
  | nil => rfl
  | cons t rest ih =>
    have ht := h t (List.mem_cons_self t rest)
    have hc : ¬ (now - t.timestamp ≤ fifteen_minutes) := by omega
    rw [fullScanLoop, if_neg hc]
    exact ih (fun u hu => h u (List.mem_cons_of_mem t hu)) q v

/-- On a newest-first history (timestamps non-increasing along the
list), the early-exit scan and the full scan agree. -/
theorem scanLoop_eq_fullScanLoop (now : ℤ) (ts : List Trade)
    (h : ts.Pairwise (fun a b => b.timestamp ≤ a.timestamp)) (q v : ℤ) :
    scanLoop now ts q v = fullScanLoop now ts q v := by
  induction ts generalizing q v with
  | nil => rfl
  | cons t rest ih =>
    obtain ⟨h1, h2⟩ := List.pairwise_cons.mp h
    by_cases hc : now - t.timestamp ≤ fifteen_minutes
    · rw [scanLoop, fullScanLoop, if_pos hc, if_pos hc]
      exact ih h2 _ _
    · have hall : ∀ u ∈ rest, fifteen_minutes < now - u.timestamp := by
        intro u hu
        have := h1 u hu
        omega
      rw [scanLoop, fullScanLoop, if_neg hc, if_neg hc, fullScanLoop_stale now rest hall q v]

/-- recalculate_price never fails, and it preserves the trade history of
the stock: the only field it can write is the price. -/
theorem recalculate_price_total (s : Stock) (now : ℤ) :
    ∃ s2 p, Stock.recalculate_price s now = .ok (s2, p) ∧ s2.trades = s.trades := by
  by_cases h : 0 < (scanLoop now s.trades 0 0).1
  · have hne : ((scanLoop now s.trades 0 0).1 : ℚ) ≠ 0 := by
      exact_mod_cast ne_of_gt h
    refine ⟨{ s with price := ((scanLoop now s.trades 0 0).2 : ℚ) / ((scanLoop now s.trades 0 0).1 : ℚ) },
      ((scanLoop now s.trades 0 0).2 : ℚ) / ((scanLoop now s.trades 0 0).1 : ℚ), ?_, rfl⟩
    simp [Stock.recalculate_price, h, pydiv, hne, Except.map]
  · exact ⟨s, s.price, by simp [Stock.recalculate_price, h], rfl⟩

/-!
Claim C1.  The claim asserts that, for every history as stored by
record_trade (append order, oldest first) and every invocation instant,
the early-exit scan of recalculate_price returns the same price and
state as a scan of the entire history without the early exit.  The code
refutes this: the scan walks the list from its head, which in append
order is the OLDEST trade, so a single out-of-window trade at the head
hides every in-window trade behind it.
-/

/-- Claim C1, counterexample: recording the twenty-minute-old trade and
then the five-minute-old one (append order) gives the history
[c1Old, c1New]; at instant 0 the early-exit recalculation stops at
c1Old and leaves the price at 50, while the full scan prices the stock
at 120 from the in-window trade c1New. -/
theorem c1_early_exit_not_equivalent :
    Stock.record_trade c1Base c1Old 0 = .ok (c1Mid, 50) ∧
    Stock.record_trade c1Mid c1New 0 = .ok (c1Stock, 50) ∧
    Stock.recalculate_price c1Stock 0 = .ok (c1Stock, 50) ∧
    Stock.recalculate_price_full c1Stock 0 = .ok ({ c1Stock with price := 120 }, 120) ∧
    Stock.recalculate_price c1Stock 0 ≠ Stock.recalculate_price_full c1Stock 0 := by
  have h3 : Stock.recalculate_price c1Stock 0 = .ok (c1Stock, 50) := by
    norm_num [Stock.recalculate_price, scanLoop, fifteen_minutes, pydiv, c1Stock, c1Old, c1New]
  have h4 : Stock.recalculate_price_full c1Stock 0 = .ok ({ c1Stock with price := 120 }, 120) := by
    norm_num [Stock.recalculate_price_full, fullScanLoop, fifteen_minutes, pydiv, Except.map,
      c1Stock, c1Old, c1New]
  refine ⟨?_, ?_, h3, h4, ?_⟩
  · norm_num [Stock.record_trade, Stock.recalculate_price, scanLoop, fifteen_minutes, pydiv,
      c1Base, c1Mid, c1Old]
  · norm_num [Stock.record_trade, Stock.recalculate_price, scanLoop, fifteen_minutes, pydiv,
      c1Mid, c1Stock, c1Old, c1New]
  · rw [h3, h4]
    simp [c1Stock]

/-- Claim C1, amended: the early exit is result-preserving exactly under
the newest-first storage assumption: for every stock whose history has
non-increasing timestamps along the list and every invocation instant,
recalculate_price with the early exit returns the same price and state
as the full scan without it.  For append-order (oldest-first) histories
the two can differ. -/
theorem c1_newest_first_equivalent (s : Stock) (now : ℤ)
    (h : s.trades.Pairwise (fun a b => b.timestamp ≤ a.timestamp)) :
    Stock.recalculate_price s now = Stock.recalculate_price_full s now := by
  simp only [Stock.recalculate_price, Stock.recalculate_price_full,
    scanLoop_eq_fullScanLoop now s.trades h 0 0]

/-- Claim C1, witness: the amended equivalence applied to the
newest-first ledger c1Sorted at instant 0. -/
theorem c1_witness :
    Stock.recalculate_price c1Sorted 0 = Stock.recalculate_price_full c1Sorted 0 :=
  c1_newest_first_equivalent c1Sorted 0 (by
    norm_num [c1Sorted, c1New, c1Old, List.pairwise_cons])

/-!
Claim C2.  A ledger whose history holds, in recording order, trades
twenty, ten and five minutes old with (price, quantity) (100,10),
(110,5), (120,5) is claimed to be repriced at 115.  The code refutes
this: the scan breaks at the first (oldest) trade, accumulates nothing,
and leaves the price unchanged.  The intended windowed average, computed
by the scan without the early exit, is 115 - the code contradicts its
own documentation, which promises the price from the trades of the last
fifteen minutes and a latest-to-oldest walk of the history.
-/

/-- The C2 ledger: recording-order history at offsets -20, -10 and -5
minutes with (price, quantity) = (100,10), (110,5), (120,5), current
price 100. -/
def c2Stock : Stock :=
  ⟨teaSym,
    [⟨teaSym, -1200, 10, true, 100⟩, ⟨teaSym, -600, 5, true, 110⟩, ⟨teaSym, -300, 5, true, 120⟩],
    100, false, 100, 8, 0⟩

/-- Claim C2: at the reference instant 0 the code leaves the C2 ledger
priced at 100 (the early exit stops at the twenty-minute-old head), even
though the scan without the early exit sets the claimed windowed average
(110 x 5 + 120 x 5) / (5 + 5) = 115. -/
theorem c2_window_average_blocked :
    Stock.recalculate_price c2Stock 0 = .ok (c2Stock, 100) ∧
    Stock.recalculate_price_full c2Stock 0 = .ok ({ c2Stock with price := 115 }, 115) := by
  constructor
  · norm_num [Stock.recalculate_price, scanLoop, fifteen_minutes, pydiv, c2Stock]
  · norm_num [Stock.recalculate_price_full, fullScanLoop, fifteen_minutes, pydiv, Except.map,
      c2Stock]

/-!
Claim C3.  The injectability half of the claim fails on the code:
recalculate_price takes no time argument and reads datetime.now() at
line 114 of src/main.py, so the caller cannot inject the reference
instant.  In this embedding that clock reading is, necessarily, the
explicit argument now.  Relative to it the determinism half holds: the
returned price depends only on the trade history, the current price and
the instant - two stocks agreeing on history and price are repriced
identically at the same instant, whatever their other attributes.
-/

/-- Claim C3: recalculation is deterministic given the trade history,
the current price and the reference instant: any two ledgers with the
same history and the same current price, recalculated at the same
instant, yield the same priced outcome. -/
theorem c3_price_determined_by_history (s1 s2 : Stock) (now : ℤ)
    (ht : s1.trades = s2.trades) (hp : s1.price = s2.price) :
    Except.map Prod.snd (Stock.recalculate_price s1 now) =
      Except.map Prod.snd (Stock.recalculate_price s2 now) := by
  simp only [Stock.recalculate_price, ht, hp]
  by_cases h : 0 < (scanLoop now s2.trades 0 0).1
  · cases hd : pydiv ((scanLoop now s2.trades 0 0).2 : ℚ) ((scanLoop now s2.trades 0 0).1 : ℚ) with
    | ok p => simp [h, hd, Except.map]
    | error err => simp [h, hd, Except.map]
  · simp [h, Except.map]

/-- A common ledger holding only the five-minute-old trade. -/
def c3A : Stock := ⟨teaSym, [c1New], 100, false, 100, 8, 0⟩

/-- A preferred ledger with the same history and price as c3A but every
other attribute different. -/
def c3B : Stock := ⟨ginSym, [c1New], 100, true, 60, 23, 1/50⟩

/-- Claim C3, witness: the determinism theorem applied to c3A and c3B at
instant 0. -/
theorem c3_witness :
    Except.map Prod.snd (Stock.recalculate_price c3A 0) =
      Except.map Prod.snd (Stock.recalculate_price c3B 0) :=
  c3_price_determined_by_history c3A c3B 0 rfl rfl

/-!
Claim C4.  When every recorded trade is strictly older than fifteen
minutes at the invocation instant - the empty history included - the
accumulated quantity is zero, the division is skipped, and the stock is
returned unchanged with its old price; no failure is possible.
-/

/-- Claim C4: a ledger whose trades are all strictly older than fifteen
minutes (in particular a ledger with empty history) is left entirely
unchanged by recalculate_price, which succeeds and returns the old
price. -/
theorem c4_stale_history_keeps_price (s : Stock) (now : ℤ)
    (h : ∀ t ∈ s.trades, fifteen_minutes < now - t.timestamp) :
    Stock.recalculate_price s now = .ok (s, s.price) := by
  have hscan : scanLoop now s.trades 0 0 = (0, 0) := by
    cases hts : s.trades with
    | nil => rfl
    | cons t rest =>
      have ht := h t (by rw [hts]; exact List.mem_cons_self t rest)
      have hc : ¬ (now - t.timestamp ≤ fifteen_minutes) := by omega
      rw [scanLoop, if_neg hc]
  simp [Stock.recalculate_price, hscan]

/-- A ledger holding only the twenty-minute-old trade. -/
def c4Stock : Stock := ⟨teaSym, [c1Old], 77, false, 100, 8, 0⟩

/-- Claim C4, witness: the theorem applied to a ledger with one stale
trade and to a ledger with empty history, at instant 0. -/
theorem c4_witness :
    Stock.recalculate_price c4Stock 0 = .ok (c4Stock, c4Stock.price) ∧
    Stock.recalculate_price c1Base 0 = .ok (c1Base, c1Base.price) :=
  ⟨c4_stale_history_keeps_price c4Stock 0 (by norm_num [c4Stock, c1Old, fifteen_minutes]),
   c4_stale_history_keeps_price c1Base 0 (by simp [c1Base])⟩

/-!
Claim C5.  get_dividend_yield divides (par value times last dividend) by
the current price for a preferred stock and last dividend by the current
price for a common one, and raises ZeroDivisionError exactly when the
current price is zero.
-/

/-- The GIN ledger of the sample dataset: preferred, par value 100, last
dividend 8, price 190. -/
def ginStock : Stock := ⟨ginSym, [], 190, true, 100, 8, 1/50⟩

/-- The POP ledger of the sample dataset: common, last dividend 8,
price 150. -/
def popStock : Stock := ⟨popSym, [], 150, false, 100, 8, 0⟩

/-- Claim C5: the dividend yield is (par value x last dividend) / price
for a preferred stock and last dividend / price for a common one
whenever the price is nonzero; it is a ZeroDivisionError exactly when
the price is zero; and on the two sample ledgers it evaluates to
800/190 and 8/150. -/
theorem c5_dividend_yield_spec :
    (∀ s : Stock, s.preferred = true → s.price ≠ 0 →
      Stock.get_dividend_yield s = .ok (((s.par_value * s.last_dividend : ℤ) : ℚ) / s.price)) ∧
    (∀ s : Stock, s.preferred = false → s.price ≠ 0 →
      Stock.get_dividend_yield s = .ok ((s.last_dividend : ℚ) / s.price)) ∧
    (∀ s : Stock, Stock.get_dividend_yield s = .error .zeroDivisionError ↔ s.price = 0) ∧
    Stock.get_dividend_yield ginStock = .ok (800 / 190) ∧
    Stock.get_dividend_yield popStock = .ok (8 / 150) := by
  refine ⟨?_, ?_, ?_, ?_, ?_⟩
  · intro s hpref hz
    simp [Stock.get_dividend_yield, hpref, pydiv, hz]
  · intro s hpref hz
    simp [Stock.get_dividend_yield, hpref, pydiv, hz]
  · intro s
    by_cases hz : s.price = 0 <;> by_cases hpref : s.preferred <;>
      simp [Stock.get_dividend_yield, pydiv, hz, hpref]
  · norm_num [Stock.get_dividend_yield, ginStock, pydiv]
  · norm_num [Stock.get_dividend_yield, popStock, pydiv]

/-- Claim C5, witness: the preferred formula applied to the GIN ledger,
whose price 190 is nonzero. -/
theorem c5_witness :
    Stock.get_dividend_yield ginStock =
      .ok (((ginStock.par_value * ginStock.last_dividend : ℤ) : ℚ) / ginStock.price) :=
  c5_dividend_yield_spec.1 ginStock rfl (by norm_num [ginStock])

/-!
Claim C6.  get_price_earnings_ratio raises ZeroDivisionError exactly
when the last dividend is zero or negative, and otherwise returns price
divided by last dividend.  The source method reads its fields and writes
none; its embedding is accordingly a pure query, so the state is
unchanged by construction.
-/

/-- A common ledger with price 200 and last dividend 8. -/
def c6Stock : Stock := ⟨joeSym, [], 200, false, 250, 8, 0⟩

/-- The TEA ledger of the sample dataset, whose last dividend is 0. -/
def c6TeaStock : Stock := ⟨teaSym, [], 120, false, 100, 0, 0⟩

/-- Claim C6: the price-earnings query fails with ZeroDivisionError
exactly when the last dividend is zero or negative, returns
price / last dividend when the last dividend is positive, and on a
ledger with price 200 and last dividend 8 returns 25. -/
theorem c6_price_earnings_spec :
    (∀ s : Stock, get_price_earnings_ratio s = .error .zeroDivisionError ↔ s.last_dividend ≤ 0) ∧
    (∀ s : Stock, 0 < s.last_dividend →
      get_price_earnings_ratio s = .ok (s.price / (s.last_dividend : ℚ))) ∧
    get_price_earnings_ratio c6Stock = .ok 25 := by
  refine ⟨?_, ?_, ?_⟩
  · intro s
    by_cases h : 0 < s.last_dividend
    · have hne : ((s.last_dividend : ℚ)) ≠ 0 := by
        exact_mod_cast ne_of_gt h
      simp only [ get_price_earnings_ratio, if_pos h, pydiv, if_neg hne]
      constructor
      · intro hfalse
        exact absurd hfalse (by simp)
      · intro hle
        omega
    · simp only [ get_price_earnings_ratio, if_neg h]
      constructor
      · intro _
        omega
      · intro _
        trivial
  · intro s h
    have hne : ((s.last_dividend : ℚ)) ≠ 0 := by
      exact_mod_cast ne_of_gt h
    simp [ get_price_earnings_ratio, h, pydiv, hne]
  · norm_num [ get_price_earnings_ratio, c6Stock, pydiv]

/-- Claim C6, witness: the positive-dividend formula applied to the
price-200, dividend-8 ledger, and the error case applied to the TEA
ledger, whose last dividend is 0. -/
theorem c6_witness :
    get_price_earnings_ratio c6Stock = .ok (c6Stock.price / (c6Stock.last_dividend : ℚ)) ∧
    get_price_earnings_ratio c6TeaStock = .error .zeroDivisionError :=
  ⟨c6_price_earnings_spec.2.1 c6Stock (by norm_num [c6Stock]),
   (c6_price_earnings_spec.1 c6TeaStock).mpr (by norm_num [c6TeaStock])⟩

/-!
Claim C7.  get_all_share_index computes
math.pow(prices_product, 1/len(all_stocks)), the Nth root of the product
of the current prices.  On an empty registry, however, the subexpression
1/len raises ZeroDivisionError - a division-by-zero error, not an
error of the EmptyRegistry class the claim names.
-/

/-- A registry holding the TEA ledger (price 120) and the POP ledger
(price 150). -/
def c7Engine : StockExchangeEngine := ⟨[(teaSym, c6TeaStock), (popSym, popStock)]⟩

/-- Claim C7, counterexample: on the empty registry the index fails with
the ZeroDivisionError class, not the EmptyRegistry class. -/
theorem c7_empty_registry_error_class :
    StockExchangeEngine.get_all_share_index ⟨[]⟩ = .error .zeroDivisionError ∧
    StockExchangeEngine.get_all_share_index ⟨[]⟩ ≠ .error .emptyRegistry := by
  constructor
  · rw [StockExchangeEngine.get_all_share_index]
    norm_num
  · rw [StockExchangeEngine.get_all_share_index]
    norm_num
    decide

/-- Claim C7, amended: the index of a nonempty registry is the product
of the current prices raised to 1/N - a nonnegative Nth root of the
product whenever the product is nonnegative; over prices 120 and 150 it
is the square root of 120 x 150, and over a single stock it is exactly
that stock price.  On the empty registry it fails with a
ZeroDivisionError-class error (from the exponent 1/0), not an
EmptyRegistry-class one. -/
theorem c7_all_share_index_spec :
    (∀ e : StockExchangeEngine, e.all_stocks = [] →
      e.get_all_share_index = .error .zeroDivisionError) ∧
    (∀ e : StockExchangeEngine, e.all_stocks ≠ [] →
      e.get_all_share_index =
        .ok (((pricesProduct e : ℚ) : ℝ) ^ ((1 : ℝ) / (e.all_stocks.length : ℝ)))) ∧
    (∀ e : StockExchangeEngine, e.all_stocks ≠ [] → 0 ≤ pricesProduct e →
      ∃ r : ℝ, e.get_all_share_index = .ok r ∧ 0 ≤ r ∧
        r ^ e.all_stocks.length = ((pricesProduct e : ℚ) : ℝ)) ∧
    StockExchangeEngine.get_all_share_index c7Engine = .ok (Real.sqrt (120 * 150)) ∧
    (∀ (sym : String) (s : Stock),
      StockExchangeEngine.get_all_share_index ⟨[(sym, s)]⟩ = .ok ((s.price : ℝ))) := by
  refine ⟨?_, ?_, ?_, ?_, ?_⟩
  · intro e h
    rw [StockExchangeEngine.get_all_share_index, if_pos (by rw [h]; rfl)]
  · intro e h
    have hlen : ¬ e.all_stocks.length = 0 := fun hc => h (List.length_eq_zero.mp hc)
    rw [StockExchangeEngine.get_all_share_index, if_neg hlen]
  · intro e h hp
    have hlen : ¬ e.all_stocks.length = 0 := fun hc => h (List.length_eq_zero.mp hc)
    have hlenR : ((e.all_stocks.length : ℝ)) ≠ 0 := Nat.cast_ne_zero.mpr hlen
    have hx : (0 : ℝ) ≤ ((pricesProduct e : ℚ) : ℝ) := by exact_mod_cast hp
    refine ⟨((pricesProduct e : ℚ) : ℝ) ^ ((1 : ℝ) / (e.all_stocks.length : ℝ)), ?_, ?_, ?_⟩
    · rw [StockExchangeEngine.get_all_share_index, if_neg hlen]
    · exact Real.rpow_nonneg hx _
    · rw [← Real.rpow_natCast
        (((pricesProduct e : ℚ) : ℝ) ^ ((1 : ℝ) / (e.all_stocks.length : ℝ))) e.all_stocks.length,
        ← Real.rpow_mul hx, one_div, inv_mul_cancel₀ hlenR, Real.rpow_one]
  · have hprod : pricesProduct c7Engine = 18000 := by
      norm_num [pricesProduct, c7Engine, c6TeaStock, popStock]
    rw [StockExchangeEngine.get_all_share_index, if_neg (by norm_num [c7Engine]), hprod,
      Real.sqrt_eq_rpow]
    norm_num [c7Engine]
  · intro sym s
    rw [StockExchangeEngine.get_all_share_index, if_neg (by norm_num)]
    norm_num [pricesProduct, Real.rpow_one]

/-- Claim C7, witness: the Nth-root characterization applied to the
two-stock registry c7Engine, whose price product 18000 is nonnegative. -/
theorem c7_witness :
    ∃ r : ℝ, StockExchangeEngine.get_all_share_index c7Engine = .ok r ∧ 0 ≤ r ∧
      r ^ c7Engine.all_stocks.length = ((pricesProduct c7Engine : ℚ) : ℝ) :=
  c7_all_share_index_spec.2.2.1 c7Engine (by simp [c7Engine])
    (by norm_num [pricesProduct, c7Engine, c6TeaStock, popStock])

/-!
Claim C8.  add_stock creates a fresh ledger - empty history, price equal
to the supplied initial price - only when the symbol is absent, and is a
no-op whenever the symbol is present, whatever the other arguments.  It
is a total function of the registry: no error is possible.
-/

/-- When the key is absent from the association list, looking it up
after appending a binding for it at the end finds that binding. -/
theorem lookupStock_append_self (l : List (String × Stock)) (symbol : String) (st : Stock)
    (h : lookupStock l symbol = none) :
    lookupStock (l ++ [(symbol, st)]) symbol = some st := by
  induction l with
  | nil => simp [lookupStock]
  | cons p rest ih =>
    obtain ⟨k, s⟩ := p
    by_cases hk : k = symbol
    · rw [lookupStock, if_pos hk] at h
      exact absurd h (by simp)
    · rw [List.cons_append, lookupStock, if_neg hk]
      rw [lookupStock, if_neg hk] at h
      exact ih h

/-- Claim C8: adding an absent symbol installs a ledger with exactly the
supplied attributes, price equal to the supplied initial price and an
empty history; adding a present symbol returns the registry unchanged,
whatever the arguments; hence a second add of the same symbol with
arbitrary other arguments never alters the registry produced by the
first. -/
theorem c8_add_stock_spec :
    (∀ (e : StockExchangeEngine) (symbol : String) (ip : ℚ) (pc : Bool) (pv ld : ℤ) (fd : ℚ),
      lookupStock e.all_stocks symbol = none →
      (e.add_stock symbol ip pc pv ld fd).get_stock symbol =
        some ⟨symbol, [], ip, pc, pv, ld, fd⟩) ∧
    (∀ (e : StockExchangeEngine) (symbol : String) (ip : ℚ) (pc : Bool) (pv ld : ℤ) (fd : ℚ)
      (s : Stock), lookupStock e.all_stocks symbol = some s →
      e.add_stock symbol ip pc pv ld fd = e) ∧
    (∀ (e : StockExchangeEngine) (symbol : String) (ip ip2 : ℚ) (pc pc2 : Bool)
      (pv pv2 ld ld2 : ℤ) (fd fd2 : ℚ),
      (e.add_stock symbol ip pc pv ld fd).add_stock symbol ip2 pc2 pv2 ld2 fd2 =
        e.add_stock symbol ip pc pv ld fd) := by
  refine ⟨?_, ?_, ?_⟩
  · intro e symbol ip pc pv ld fd h
    rw [StockExchangeEngine.add_stock, h, StockExchangeEngine.get_stock]
    exact lookupStock_append_self e.all_stocks symbol _ h
  · intro e symbol ip pc pv ld fd s h
    rw [StockExchangeEngine.add_stock, h]
  · intro e symbol ip ip2 pc pc2 pv pv2 ld ld2 fd fd2
    cases h : lookupStock e.all_stocks symbol with
    | some s =>
      have hinner : e.add_stock symbol ip pc pv ld fd = e := by
        rw [StockExchangeEngine.add_stock, h]
      rw [hinner, StockExchangeEngine.add_stock, h]
    | none =>
      have h2 := lookupStock_append_self e.all_stocks symbol
        ⟨symbol, [], ip, pc, pv, ld, fd⟩ h
      have hinner : e.add_stock symbol ip pc pv ld fd =
          ⟨e.all_stocks ++ [(symbol, ⟨symbol, [], ip, pc, pv, ld, fd⟩)]⟩ := by
        rw [StockExchangeEngine.add_stock, h]
      rw [hinner]
      simp only [StockExchangeEngine.add_stock, h2]

/-- Claim C8, witness: adding TEA to the empty registry installs the TEA
ledger with price 120 and empty history. -/
theorem c8_witness :
    (StockExchangeEngine.add_stock ⟨[]⟩ teaSym 120 false 100 0 0).get_stock teaSym =
      some ⟨teaSym, [], 120, false, 100, 0, 0⟩ :=
  c8_add_stock_spec.1 ⟨[]⟩ teaSym 120 false 100 0 0 rfl

/-!
Claim C9.  The registry record_trade looks the symbol up: when absent
the call returns the registry unchanged - stock count and every ledger
untouched, no error; when present it delegates to the Stock
record_trade, which appends the trade to the history and recalculates
the price, and stores the updated ledger in place.
-/

/-- Claim C9: record_trade on an unregistered symbol returns the
registry unchanged; on a registered symbol it is exactly the delegation
to the Stock record_trade of the found ledger, stored in place; and the
Stock record_trade always succeeds with a ledger whose history is the
old history with the trade appended. -/
theorem c9_engine_record_trade_spec :
    (∀ (e : StockExchangeEngine) (symbol : String) (t : Trade) (now : ℤ),
      lookupStock e.all_stocks symbol = none →
      StockExchangeEngine.record_trade e symbol t now = .ok e) ∧
    (∀ (e : StockExchangeEngine) (symbol : String) (t : Trade) (now : ℤ) (s : Stock),
      lookupStock e.all_stocks symbol = some s →
      StockExchangeEngine.record_trade e symbol t now =
        Except.map (fun x => ⟨updateStock e.all_stocks symbol x.1⟩)
          (Stock.record_trade s t now)) ∧
    (∀ (s : Stock) (t : Trade) (now : ℤ),
      ∃ s2 p, Stock.record_trade s t now = .ok (s2, p) ∧ s2.trades = s.trades ++ [t]) := by
  refine ⟨?_, ?_, ?_⟩
  · intro e symbol t now h
    rw [StockExchangeEngine.record_trade, h]
  · intro e symbol t now s h
    rw [StockExchangeEngine.record_trade, h]
  · intro s t now
    obtain ⟨s2, p, hok, htr⟩ :=
      recalculate_price_total { s with trades := s.trades ++ [t] } now
    exact ⟨s2, p, hok, htr⟩

/-- Claim C9, witness: record_trade of a trade under TEA on the empty
registry returns the empty registry unchanged. -/
theorem c9_witness :
    StockExchangeEngine.record_trade ⟨[]⟩ teaSym c1New 0 = .ok ⟨[]⟩ :=
  c9_engine_record_trade_spec.1 ⟨[]⟩ teaSym c1New 0 rfl

/-!
Claim C10.  The division of recalculate_price runs only under the
strict guard on the accumulated quantity being positive, so it can never
raise ZeroDivisionError; whenever the accumulated in-window quantity is
zero or negative - negative trade quantities are accepted unvalidated -
the stock is returned unchanged with its old price.
-/

/-- Claim C10: recalculate_price never fails, and whenever the
early-exit scan accumulates a quantity that is zero or negative the
stock and its price are returned unchanged. -/
theorem c10_recalc_division_guard :
    (∀ (s : Stock) (now : ℤ), ∃ out, Stock.recalculate_price s now = .ok out) ∧
    (∀ (s : Stock) (now : ℤ), (scanLoop now s.trades 0 0).1 ≤ 0 →
      Stock.recalculate_price s now = .ok (s, s.price)) := by
  constructor
  · intro s now
    obtain ⟨s2, p, hok, -⟩ := recalculate_price_total s now
    exact ⟨(s2, p), hok⟩
  · intro s now h
    have h2 : ¬ 0 < (scanLoop now s.trades 0 0).1 := by omega
    simp [Stock.recalculate_price, h2]

/-- A ledger holding a single in-window trade of negative quantity. -/
def c10Stock : Stock := ⟨teaSym, [⟨teaSym, -300, -3, true, 100⟩], 42, false, 100, 8, 0⟩

/-- Claim C10, witness: the guard theorem applied to the ledger whose
single in-window trade has quantity -3, at instant 0: the price 42 is
kept. -/
theorem c10_witness :
    Stock.recalculate_price c10Stock 0 = .ok (c10Stock, c10Stock.price) :=
  c10_recalc_division_guard.2 c10Stock 0 (by norm_num [c10Stock, scanLoop, fifteen_minutes])

end SimpleStocks
